import Mathlib

/-
Verification of the recutils record-store engine (recutils/operations.go).

The Go code is shallowly embedded: strings are Lean strings, the filesystem
is an association list from path to content, each os.WriteFile call carries
an explicit fault outcome, and every external subprocess invocation
(recsel / recins / recinf) is modelled by a CmdBehavior value describing the
observable behaviour of that process run.
-/

namespace RecMCP

/-- Execution result structure: mirrors `Result` in operations.go (success,
output, error). -/
structure Result where
  success : Bool
  output  : String
  error   : String
deriving DecidableEq, Repr

/-- Split a character list at newline characters keeping empty segments;
the list-level semantics of Go strings.Split(s, "\n") (an empty input
yields one empty segment). -/
def splitNl : List Char → List (List Char)
  | [] => [[]]
  | c :: cs =>
    match splitNl cs with
    | [] => [[]]
    | h :: t => if c = '\n' then [] :: h :: t else (c :: h) :: t

/-- Go strings.Split(s, "\n"). -/
def goSplitLines (s : String) : List String :=
  (splitNl s.data).map (fun l => String.mk l)

/-- Go strings.TrimSpace: drop whitespace from both ends (the stores under
consideration are ASCII, where Go and Lean agree on what whitespace is). -/
def goTrimSpace (s : String) : String :=
  String.mk (((s.data.dropWhile Char.isWhitespace).reverse.dropWhile Char.isWhitespace).reverse)

/-- Go strings.Join. -/
def goJoin (sep : String) : List String → String
  | [] => ""
  | [x] => x
  | x :: y :: xs => x ++ sep ++ goJoin sep (y :: xs)

/-- Go strings.HasPrefix. -/
def goStartsWith (s pre : String) : Bool :=
  pre.data.isPrefixOf s.data

/-- A single apostrophe character, used in confirmation messages. -/
def quoteMark : String := String.mk [Char.ofNat 39]

/-- extractRecordTypeDeclaration (operations.go lines 331-340): first line
whose trimmed form begins with the record-type marker, trimmed; empty string
when none is found. -/
def extractRecordTypeDeclaration (content : String) : String :=
  match (goSplitLines content).find? (fun line => goStartsWith (goTrimSpace line) "%rec:") with
  | some line => goTrimSpace line
  | none => ""

/-- Observable behaviour of one external process run: how long it would run
to completion, whether it would then exit cleanly, and the bytes found in the
captured stdout/stderr buffers when command.Run returns. -/
structure CmdBehavior where
  runSeconds : Nat
  exitOk     : Bool
  stdout     : String
  stderr     : String
deriving DecidableEq, Repr

/-- context.WithTimeout: the derived context carries the smaller of the
parent deadline and the fresh timeout. A deadline is the number of seconds
the context allows; none means no deadline. -/
def withTimeout (parent : Option Nat) (t : Nat) : Option Nat :=
  match parent with
  | none => some t
  | some d => some (min d t)

/-- Error value of command.Run for a process that ran to completion. -/
def exitVerdict (proc : CmdBehavior) : Option String :=
  if proc.exitOk then none else some "exit status 1"

/-- Error value of command.Run for a process bound to the given deadline:
the process is killed when the deadline elapses before it finishes. -/
def runVerdict (deadline : Option Nat) (proc : CmdBehavior) : Option String :=
  match deadline with
  | none => exitVerdict proc
  | some d => if d < proc.runSeconds then some "signal: killed" else exitVerdict proc

/-- Seconds a process bound to the given deadline actually runs. -/
def secondsRun (deadline : Option Nat) (proc : CmdBehavior) : Nat :=
  match deadline with
  | none => proc.runSeconds
  | some d => min proc.runSeconds d

/-- Model of executeRecCommand (operations.go lines 30-59). The subprocess is
constructed by exec.CommandContext at line 33 and is therefore bound to the
caller's context; line 42 then derives a 30-second timeout context into a
shadowing local variable which the already-constructed command never observes,
so only the caller's deadline bounds the subprocess. On a non-nil Run error
the captured buffers are returned untrimmed with success=false; on a clean
exit both buffers are trimmed and success=true; the returned Go error is nil
on both paths. -/
def executeRecCommand (ctx : Option Nat) (cmd : List String) (inputData : String)
    (proc : CmdBehavior) : Result × Option String :=
  let commandDeadline := ctx
  let _shadowedCtx := withTimeout ctx 30
  match runVerdict commandDeadline proc with
  | some _ =>
    ({ success := false, output := proc.stdout, error := proc.stderr }, none)
  | none =>
    ({ success := true, output := goTrimSpace proc.stdout, error := goTrimSpace proc.stderr }, none)

/-- Seconds the subprocess started by executeRecCommand runs: its deadline is
the caller's context from line 33, since the 30-second context of line 42 is
never attached to the command. -/
def executeRecCommandSeconds (ctx : Option Nat) (proc : CmdBehavior) : Nat :=
  secondsRun ctx proc

/-- Filesystem model: an association list from path to file content. -/
structure FS where
  entries : List (String × String)
deriving DecidableEq, Repr

/-- Content of the file at a path, none when absent. -/
def FS.get (fs : FS) (p : String) : Option String :=
  (fs.entries.find? (fun e => e.1 == p)).map (fun e => e.2)

/-- Replace or create the file at a path. -/
def FS.set (fs : FS) (p v : String) : FS :=
  ⟨(p, v) :: fs.entries.filter (fun e => !(e.1 == p))⟩

/-- os.Remove: drop the file at a path. -/
def FS.remove (fs : FS) (p : String) : FS :=
  ⟨fs.entries.filter (fun e => !(e.1 == p))⟩

/-- Fault model for one os.WriteFile call: ok writes the content; fail leaves
whatever bytes were written before the failure (possibly the empty string,
when the failure followed the O_TRUNC open) and yields the given message. -/
inductive WriteOutcome where
  | ok
  | fail (written : String) (msg : String)
deriving DecidableEq, Repr

/-- os.WriteFile under the fault model. -/
def writeFile (fs : FS) (p content : String) : WriteOutcome → FS × Option String
  | .ok => (fs.set p content, none)
  | .fail written msg => (fs.set p written, some msg)

/-- Error text of os.ReadFile on a missing file. -/
def noSuchFile (p : String) : String :=
  "open " ++ p ++ ": no such file or directory"

/-- One observable engine action: a file write performed by the engine
itself, or the invocation of an external command. -/
inductive Action where
  | write (path content : String)
  | exec (cmd : List String)
deriving DecidableEq, Repr

/-- Result of os.Stat under the model: the file is missing, or present with
its size, or stat itself failed with a message. -/
inductive StatRes where
  | notExist
  | ok (size : Nat)
  | failed (msg : String)
deriving DecidableEq, Repr

/-- os.Stat on the modelled filesystem, with an injectable stat fault. -/
def statFile (fs : FS) (p : String) (fault : Option String) : StatRes :=
  match fault with
  | some msg => .failed msg
  | none =>
    match fs.get p with
    | none => .notExist
    | some c => .ok c.length

/-- Model of InsertRecord (operations.go lines 81-133). fields is an ordered
listing of the Go map (Go map iteration order is unspecified; the claims do
not depend on it). createW models the os.WriteFile of the create path;
recinsProc models the external recins process of the append path, whose own
effect on the store file is outside the engine. The last component records
every action the engine itself performs. -/
def InsertRecord (ctx : Option Nat) (fs : FS) (databaseFile recordType : String)
    (fields : List (String × String)) (statFault : Option String)
    (createW : WriteOutcome) (recinsProc : CmdBehavior) :
    FS × Result × Option String × List Action :=
  let recordLines := fields.map (fun f => f.1 ++ ": " ++ f.2)
  let recordContent := goJoin "\n" recordLines
  let freshContent := "%rec: " ++ recordType ++ "\n\n" ++ recordContent ++ "\n"
  match statFile fs databaseFile statFault with
  | .notExist =>
    match writeFile fs databaseFile freshContent createW with
    | (fs1, some msg) =>
      (fs1, { success := false, output := "", error := msg },
        some ("failed to write database file: " ++ msg),
        [.write databaseFile freshContent])
    | (fs1, none) =>
      (fs1, { success := true, output := "Record inserted successfully", error := "" },
        none, [.write databaseFile freshContent])
  | .ok 0 =>
    match writeFile fs databaseFile freshContent createW with
    | (fs1, some msg) =>
      (fs1, { success := false, output := "", error := msg },
        some ("failed to write database file: " ++ msg),
        [.write databaseFile freshContent])
    | (fs1, none) =>
      (fs1, { success := true, output := "Record inserted successfully", error := "" },
        none, [.write databaseFile freshContent])
  | .failed msg =>
    (fs, { success := false, output := "", error := msg },
      some ("failed to stat database file: " ++ msg), [])
  | .ok (_ + 1) =>
    let cmd := ["recins", "-t", recordType, "-r", recordContent, databaseFile]
    let res := executeRecCommand ctx cmd "" recinsProc
    if res.2.isSome || !res.1.success then
      (fs, { success := false, output := res.1.output, error := res.1.error },
        res.2, [.exec cmd])
    else
      (fs, { success := true, output := "Record inserted successfully", error := "" },
        none, [.exec cmd])

/-- Rebuilt file content written by DeleteRecords (operations.go lines
165-172): the extracted declaration block when present, then the kept
records block with a final newline when nonempty. -/
def deleteOutput (recordTypeDecl keptOutput : String) : String :=
  (if recordTypeDecl != "" then recordTypeDecl ++ "\n\n" else "")
  ++ (if keptOutput != "" then keptOutput ++ "\n" else "")

/-- Model of DeleteRecords (operations.go lines 136-199). keepProc models the
recsel run over the negated predicate; backupW and finalW model the backup
and rebuild os.WriteFile calls; restoreW models the ignored-error write in
the restoration branches (which the code directs at the backup path, not the
store path). -/
def DeleteRecords (ctx : Option Nat) (fs : FS) (databaseFile queryExpression : String)
    (keepProc : CmdBehavior) (backupW finalW restoreW : WriteOutcome) :
    FS × Result × Option String :=
  let backupFile := databaseFile ++ ".bak"
  match fs.get databaseFile with
  | none =>
    (fs, { success := false, output := "", error := noSuchFile databaseFile },
      some ("failed to read database file: " ++ noSuchFile databaseFile))
  | some originalContent =>
    match writeFile fs backupFile originalContent backupW with
    | (fs1, some msg) =>
      (fs1, { success := false, output := "", error := msg },
        some ("failed to create backup: " ++ msg))
    | (fs1, none) =>
      let recordTypeDecl := extractRecordTypeDeclaration originalContent
      let cmd := ["recsel", "-e", "!(" ++ queryExpression ++ ")", databaseFile]
      let res := executeRecCommand ctx cmd "" keepProc
      let result := res.1
      if result.success then
        let output := deleteOutput recordTypeDecl result.output
        match writeFile fs1 databaseFile output finalW with
        | (fs2, some msg) =>
          let fs3 := (writeFile fs2 backupFile originalContent restoreW).1
          (fs3, { success := false, output := "", error := msg },
            some ("failed to write database file: " ++ msg))
        | (fs2, none) =>
          (fs2.remove backupFile,
            { success := true,
              output := "Records matching " ++ quoteMark ++ queryExpression ++ quoteMark
                ++ " deleted successfully",
              error := "" }, none)
      else
        let fs2 := (writeFile fs1 backupFile originalContent restoreW).1
        (fs2.remove backupFile, result, none)

/-- Inner loop of the update-fields pass (operations.go lines 257-273), for
one position i whose line was captured when the range over currentRecord
began: for each requested field change, if the captured line begins with
"name:" the element at i is overwritten with the new rendering; otherwise,
when no element of the current slice begins with "name:", a fresh line is
appended. -/
def applyChangesAt (cur : List String) (i : Nat) (line : String) :
    List (String × String) → List String
  | [] => cur
  | (fieldName, fieldValue) :: rest =>
    let next :=
      if goStartsWith line (fieldName ++ ":") then
        cur.set i (fieldName ++ ": " ++ fieldValue)
      else if cur.any (fun l => goStartsWith l (fieldName ++ ":")) then
        cur
      else
        cur ++ [fieldName ++ ": " ++ fieldValue]
    applyChangesAt next i line rest

/-- Outer loop of the update-fields pass (operations.go lines 256-274). Go's
range expression captures the slice once: iteration runs over the positions
and line values currentRecord held when the loop started, while element
overwrites land at the position being visited and appends grow the slice
without extending the iteration. -/
def updateFieldsPass (rec0 : List String) (fields : List (String × String)) : List String :=
  rec0.enum.foldl (fun cur p => applyChangesAt cur p.1 p.2 fields) rec0

/-- Non-blank trimmed lines of the matched-records output (operations.go
lines 245-253). -/
def matchedLines (queryOutput : String) : List String :=
  ((goSplitLines queryOutput).map goTrimSpace).filter (fun l => l != "")

/-- Rebuilt file content written by UpdateRecords (operations.go lines
279-295): declaration block when present, then the kept block, then — only
when the updated block is nonempty — a blank-line separator and the updated
lines with a final newline. -/
def updateOutput (recordTypeDecl keptOutput : String) (updatedRecords : List String) : String :=
  (if recordTypeDecl != "" then recordTypeDecl ++ "\n\n" else "")
  ++ (if keptOutput != "" then
        keptOutput ++ (if updatedRecords.length > 0 then "\n\n" else "")
      else "")
  ++ (if updatedRecords.length > 0 then goJoin "\n" updatedRecords ++ "\n" else "")

/-- Model of UpdateRecords (operations.go lines 202-322). queryProc models
the recsel run over the predicate, keepProc the recsel run over its negation;
backupW and finalW model the backup and rebuild os.WriteFile calls, restoreW
the ignored-error restoration write (directed by the code at the backup
path). -/
def UpdateRecords (ctx : Option Nat) (fs : FS) (databaseFile queryExpression : String)
    (fields : List (String × String)) (queryProc keepProc : CmdBehavior)
    (backupW finalW restoreW : WriteOutcome) :
    FS × Result × Option String :=
  let queryCmd := ["recsel", "-e", queryExpression, databaseFile]
  let queryRes := executeRecCommand ctx queryCmd "" queryProc
  let queryResult := queryRes.1
  if queryRes.2.isSome || !queryResult.success then
    (fs, { success := false, output := "", error := queryResult.error }, queryRes.2)
  else
    let backupFile := databaseFile ++ ".bak"
    match fs.get databaseFile with
    | none =>
      (fs, { success := false, output := "", error := noSuchFile databaseFile },
        some ("failed to read database file: " ++ noSuchFile databaseFile))
    | some originalContent =>
      match writeFile fs backupFile originalContent backupW with
      | (fs1, some msg) =>
        (fs1, { success := false, output := "", error := msg },
          some ("failed to create backup: " ++ msg))
      | (fs1, none) =>
        let keepCmd := ["recsel", "-e", "!(" ++ queryExpression ++ ")", databaseFile]
        let keepRes := executeRecCommand ctx keepCmd "" keepProc
        let keepResult := keepRes.1
        if keepResult.success then
          let recordTypeDecl := extractRecordTypeDeclaration originalContent
          let currentRecord := matchedLines queryResult.output
          let updatedRecords := updateFieldsPass currentRecord fields
          let output := updateOutput recordTypeDecl keepResult.output updatedRecords
          match writeFile fs1 databaseFile output finalW with
          | (fs2, some msg) =>
            let fs3 := (writeFile fs2 backupFile originalContent restoreW).1
            (fs3, { success := false, output := "", error := msg },
              some ("failed to write database file: " ++ msg))
          | (fs2, none) =>
            (fs2.remove backupFile,
              { success := true, output := "Records updated successfully", error := "" },
              none)
        else
          let fs2 := (writeFile fs1 backupFile originalContent restoreW).1
          (fs2.remove backupFile, keepResult, none)

/-- Model of QueryRecords (operations.go lines 62-78): builds the recsel
argument list and delegates to executeRecCommand. -/
def QueryRecords (ctx : Option Nat) (databaseFile queryExpression outputFormat : String)
    (proc : CmdBehavior) : Result × Option String :=
  let cmd := ["recsel"]
  let cmd := if outputFormat != "" then cmd ++ ["-t", outputFormat] else cmd
  let cmd := cmd ++ [databaseFile]
  let cmd := if queryExpression != "" then cmd ++ ["-e", queryExpression] else cmd
  executeRecCommand ctx cmd "" proc

/-- Model of GetDatabaseInfo (operations.go lines 325-328). -/
def GetDatabaseInfo (ctx : Option Nat) (databaseFile : String) (proc : CmdBehavior) :
    Result × Option String :=
  executeRecCommand ctx ["recinf", databaseFile] "" proc

/-- Modelled from the spec: a line holding a type declaration, i.e. one that
begins with the marker. -/
def isDeclLine (l : List Char) : Bool :=
  "%rec:".data.isPrefixOf l

/-- First segment exists and is nonblank. -/
def firstNonblank : List (List Char) → Bool
  | [] => false
  | h :: _ => !h.isEmpty

/-- Last segment exists and is nonblank. -/
def lastNonblank (xs : List (List Char)) : Bool :=
  match xs.getLast? with
  | some l => !l.isEmpty
  | none => false

/-- No two adjacent blank segments. -/
def noTwoBlank : List (List Char) → Bool
  | [] => true
  | [_] => true
  | a :: b :: t => !(a.isEmpty && b.isEmpty) && noTwoBlank (b :: t)

/-- Modelled from the spec: a region of record lines — empty, or starting and
ending with a nonblank line and never holding two adjacent blank lines, so
records are separated by exactly one blank line. -/
def recordsRegionOK : List (List Char) → Bool
  | [] => true
  | x :: t => firstNonblank (x :: t) && lastNonblank (x :: t) && noTwoBlank (x :: t)

/-- Modelled from the spec's store invariant: if a type declaration is
present it is line 1 and is followed by exactly one blank line before the
first record; records are separated from each other by exactly one blank
line; the file ends with a trailing newline after the last record's last
field line. A zero-byte store holds no declaration and no records, so the
invariant is vacuously satisfied there. -/
def specFormatInvariant (content : String) : Bool :=
  if content.data.isEmpty then true else
  let ls := splitNl content.data
  (ls.getLast? == some ([] : List Char)) &&
  (match ls.dropLast with
   | [] => false
   | d :: rest =>
     if isDeclLine d then
       match rest with
       | [] => false
       | r1 :: r2 => r1.isEmpty && recordsRegionOK r2
     else recordsRegionOK (d :: rest))

/-- A well-formed trimmed record block as the evaluation capability returns
it: nonempty, first and last lines nonblank, single blank separators, and not
opening with a type declaration line. -/
def wfRecordBlock (b : String) : Bool :=
  let ls := splitNl b.data
  !b.data.isEmpty && firstNonblank ls && lastNonblank ls && noTwoBlank ls
    && !isDeclLine (ls.headD [])

/-- Some line of the content carries a type declaration after trimming, i.e.
a declaration in the sense of extractRecordTypeDeclaration. -/
def declPresent (s : String) : Bool :=
  (goSplitLines s).any (fun line => goStartsWith (goTrimSpace line) "%rec:")

/-- Whether an engine action is a file write. -/
def Action.isWrite : Action → Bool
  | .write _ _ => true
  | .exec _ => false

/-- Character-list form of the line predicate behind declPresent and
extractRecordTypeDeclaration: the line, trimmed, begins with the marker. -/
def lineIsDecl (l : List Char) : Bool :=
  goStartsWith (goTrimSpace (String.mk l)) "%rec:"

/-- Some line of the character list carries a type declaration. -/
def declAny (l : List Char) : Bool :=
  (splitNl l).any lineIsDecl

lemma splitNl_ne_nil (l : List Char) : splitNl l ≠ [] := by
  cases l with
  | nil => simp [splitNl]
  | cons c cs =>
    simp only [splitNl]
    split
    · simp
    · split <;> simp

lemma splitNl_cons_nl (b : List Char) : splitNl ('\n' :: b) = [] :: splitNl b := by
  simp only [splitNl]
  rcases h : splitNl b with _ | ⟨a, t⟩
  · exact absurd h (splitNl_ne_nil b)
  · simp

lemma splitNl_cons_other (c : Char) (b : List Char) (hc : c ≠ '\n') :
    splitNl (c :: b) = (c :: (splitNl b).headD []) :: (splitNl b).tail := by
  simp only [splitNl]
  rcases h : splitNl b with _ | ⟨a, t⟩
  · exact absurd h (splitNl_ne_nil b)
  · simp [hc]

lemma splitNl_append_nl (a b : List Char) (ha : '\n' ∉ a) :
    splitNl (a ++ '\n' :: b) = a :: splitNl b := by
  induction a with
  | nil => simpa using splitNl_cons_nl b
  | cons c cs ih =>
    have hc : c ≠ '\n' := fun h => ha (h ▸ List.mem_cons_self c cs)
    have hcs : '\n' ∉ cs := fun h => ha (List.mem_cons_of_mem c h)
    rw [List.cons_append, splitNl_cons_other c _ hc, ih hcs]
    simp

lemma splitNl_no_nl (a : List Char) (ha : '\n' ∉ a) : splitNl a = [a] := by
  induction a with
  | nil => simp [splitNl]
  | cons c cs ih =>
    have hc : c ≠ '\n' := fun h => ha (h ▸ List.mem_cons_self c cs)
    have hcs : '\n' ∉ cs := fun h => ha (List.mem_cons_of_mem c h)
    rw [splitNl_cons_other c cs hc, ih hcs]
    simp

lemma splitNl_concat_nl (a : List Char) : splitNl (a ++ ['\n']) = splitNl a ++ [[]] := by
  induction a with
  | nil => simp [splitNl]
  | cons c cs ih =>
    by_cases hc : c = '\n'
    · subst hc
      rw [List.cons_append, splitNl_cons_nl, splitNl_cons_nl, ih]
      simp
    · rw [List.cons_append, splitNl_cons_other c _ hc, splitNl_cons_other c cs hc, ih]
      rcases h : splitNl cs with _ | ⟨x, t⟩
      · exact absurd h (splitNl_ne_nil cs)
      · simp

lemma mem_splitNl_no_nl (s : List Char) (l : List Char) (hl : l ∈ splitNl s) : '\n' ∉ l := by
  induction s generalizing l with
  | nil =>
    simp [splitNl] at hl
    simp [hl]
  | cons c cs ih =>
    by_cases hc : c = '\n'
    · subst hc
      rw [splitNl_cons_nl] at hl
      rcases List.mem_cons.mp hl with h | h
      · simp [h]
      · exact ih l h
    · rw [splitNl_cons_other c cs hc] at hl
      rcases List.mem_cons.mp hl with h | h
      · subst h
        intro hmem
        rcases List.mem_cons.mp hmem with h2 | h2
        · exact hc h2.symm
        · have hhd : (splitNl cs).headD [] ∈ splitNl cs := by
            rcases hh : splitNl cs with _ | ⟨x, t⟩
            · exact absurd hh (splitNl_ne_nil cs)
            · simp
          exact ih _ hhd h2
      · exact ih l (List.mem_of_mem_tail h)

lemma string_data_append (s t : String) : (s ++ t).data = s.data ++ t.data := rfl

lemma string_mk_data (l : List Char) : (String.mk l).data = l := rfl

lemma execErrNone (ctx : Option Nat) (cmd : List String) (inputData : String)
    (proc : CmdBehavior) : (executeRecCommand ctx cmd inputData proc).2 = none := by
  simp only [executeRecCommand]
  split <;> rfl

lemma FS.get_remove_self (fs : FS) (p : String) : (fs.remove p).get p = none := by
  have hfind : List.find? (fun e => e.1 == p) (fs.entries.filter (fun e => !(e.1 == p)))
      = none := by
    rw [List.find?_eq_none]
    intro x hx
    have hmem := (List.mem_filter.mp hx).2
    simpa using hmem
  simp [FS.get, FS.remove, hfind]

/-- C2: the claim says every adapter invocation is bounded by a fixed
30-second limit, exceeding which yields a failure Result. In the code the
subprocess is bound to the caller's context before the 30-second timeout
context is created, and that timeout context is never attached to it, so with
a deadline-free caller a process that needs 60 seconds runs for the full 60
seconds and its clean exit is reported as success. This theorem evaluates the
model at that failing input. -/
theorem exec_timeout_never_bounds_subprocess :
    executeRecCommandSeconds none ⟨60, true, "out", ""⟩ = 60
    ∧ (executeRecCommand none ["recsel", "db.rec"] "" ⟨60, true, "out", ""⟩).1.success = true := by
  exact ⟨rfl, rfl⟩

/-- C9: on a failing run the adapter returns success=false with the captured
stdout in output and the captured stderr in error, and a nil propagating
error; on a clean exit it returns success=true with both captured streams
trimmed of surrounding whitespace, again with a nil error. -/
theorem exec_result_shape (ctx : Option Nat) (cmd : List String) (inputData : String)
    (proc : CmdBehavior) :
    (proc.exitOk = false →
      executeRecCommand ctx cmd inputData proc
        = ({ success := false, output := proc.stdout, error := proc.stderr }, none))
    ∧ (runVerdict ctx proc = none →
      executeRecCommand ctx cmd inputData proc
        = ({ success := true, output := goTrimSpace proc.stdout,
             error := goTrimSpace proc.stderr }, none)) := by
  constructor
  · intro hexit
    have hv : ∃ m, runVerdict ctx proc = some m := by
      cases ctx with
      | none => exact ⟨"exit status 1", by simp [runVerdict, exitVerdict, hexit]⟩
      | some d =>
        by_cases hd : d < proc.runSeconds
        · exact ⟨"signal: killed", by simp [runVerdict, hd]⟩
        · exact ⟨"exit status 1", by simp [runVerdict, hd, exitVerdict, hexit]⟩
    obtain ⟨m, hm⟩ := hv
    simp [executeRecCommand, hm]
  · intro hv
    simp [executeRecCommand, hv]

/-- C9 witness: concrete failing and succeeding runs. -/
theorem exec_result_shape_witness :
    executeRecCommand none ["recsel"] "" ⟨1, false, "so", "se"⟩
      = ({ success := false, output := "so", error := "se" }, none)
    ∧ executeRecCommand none ["recsel"] "" ⟨1, true, " a ", ""⟩
      = ({ success := true, output := "a", error := "" }, none) := by
  refine ⟨(exec_result_shape none ["recsel"] "" ⟨1, false, "so", "se"⟩).1 rfl, ?_⟩
  have h := (exec_result_shape none ["recsel"] "" ⟨1, true, " a ", ""⟩).2 (by rfl)
  rw [h]
  decide

/-- C10: the adapter returns a nil propagating error on every path, and query
and info, which delegate to it, therefore never return a non-nil error — the
caller can only detect failure through the success flag. -/
theorem adapters_return_nil_error (ctx : Option Nat) (cmd : List String)
    (inputData databaseFile queryExpression outputFormat : String) (proc : CmdBehavior) :
    (executeRecCommand ctx cmd inputData proc).2 = none
    ∧ (QueryRecords ctx databaseFile queryExpression outputFormat proc).2 = none
    ∧ (GetDatabaseInfo ctx databaseFile proc).2 = none := by
  refine ⟨execErrNone ctx cmd inputData proc, ?_, execErrNone ctx _ "" proc⟩
  simp only [QueryRecords]
  exact execErrNone ctx _ "" proc

/-- C8: update evaluates the matching-records query first; when that query
fails, the operation returns the failure immediately, with the filesystem
untouched — in particular no backup has been written. -/
theorem update_query_failure_is_side_effect_free (ctx : Option Nat) (fs : FS)
    (databaseFile queryExpression : String) (fields : List (String × String))
    (queryProc keepProc : CmdBehavior) (backupW finalW restoreW : WriteOutcome)
    (hfail : (executeRecCommand ctx ["recsel", "-e", queryExpression, databaseFile] ""
      queryProc).1.success = false) :
    UpdateRecords ctx fs databaseFile queryExpression fields queryProc keepProc
        backupW finalW restoreW
      = (fs, { success := false, output := "",
               error := (executeRecCommand ctx ["recsel", "-e", queryExpression,
                 databaseFile] "" queryProc).1.error }, none) := by
  have herr := execErrNone ctx ["recsel", "-e", queryExpression, databaseFile] "" queryProc
  simp [UpdateRecords, herr, hfail]

/-- C8 witness: a concrete failing predicate evaluation leaves a concrete
filesystem unchanged. -/
theorem update_query_failure_witness :
    UpdateRecords none ⟨[("db.rec", "a: 1\n")]⟩ "db.rec" "bad" [("Age", "9")]
        ⟨1, false, "", "parse error"⟩ ⟨1, true, "", ""⟩ .ok .ok .ok
      = (⟨[("db.rec", "a: 1\n")]⟩,
         { success := false, output := "", error := "parse error" }, none) := by
  have h := update_query_failure_is_side_effect_free none ⟨[("db.rec", "a: 1\n")]⟩
    "db.rec" "bad" [("Age", "9")] ⟨1, false, "", "parse error"⟩ ⟨1, true, "", ""⟩
    .ok .ok .ok (by rfl)
  rw [h]
  rfl

/-- C1: the claim says a failed final write makes delete and update restore
the store from the backup, leaving the store's bytes as they were before the
operation. The restoration branches instead write the original bytes to the
backup path (operations.go lines 177 and 300), so when the final write fails
after truncating the store, the store is left empty — contradicting the
code's own Restore backup comment. Evaluated here at a failing input for both
delete and update. -/
theorem restore_writes_to_backup_path_not_store :
    ((DeleteRecords none ⟨[("db.rec", "a: 1\n")]⟩ "db.rec" "x"
        ⟨1, true, "a: 1\n", ""⟩ .ok (.fail "" "disk full") .ok).1.get "db.rec" = some ""
      ∧ (DeleteRecords none ⟨[("db.rec", "a: 1\n")]⟩ "db.rec" "x"
        ⟨1, true, "a: 1\n", ""⟩ .ok (.fail "" "disk full") .ok).2.1.success = false)
    ∧ ((UpdateRecords none ⟨[("db.rec", "a: 1\n")]⟩ "db.rec" "x" [("a", "2")]
        ⟨1, true, "a: 1\n", ""⟩ ⟨1, true, "", ""⟩ .ok (.fail "" "disk full") .ok).1.get
          "db.rec" = some ""
      ∧ (UpdateRecords none ⟨[("db.rec", "a: 1\n")]⟩ "db.rec" "x" [("a", "2")]
        ⟨1, true, "a: 1\n", ""⟩ ⟨1, true, "", ""⟩ .ok (.fail "" "disk full") .ok).2.1.success
          = false) := by
  decide

/-- C6: after any delete or update that returns success=true, the backup file
named by appending .bak to the store path is no longer on disk. -/
theorem success_implies_backup_removed (ctx : Option Nat) (fs : FS)
    (databaseFile queryExpression : String) (fields : List (String × String))
    (queryProc keepProc : CmdBehavior) (backupW finalW restoreW : WriteOutcome) :
    ((DeleteRecords ctx fs databaseFile queryExpression keepProc backupW finalW
        restoreW).2.1.success = true →
      (DeleteRecords ctx fs databaseFile queryExpression keepProc backupW finalW
        restoreW).1.get (databaseFile ++ ".bak") = none)
    ∧ ((UpdateRecords ctx fs databaseFile queryExpression fields queryProc keepProc
        backupW finalW restoreW).2.1.success = true →
      (UpdateRecords ctx fs databaseFile queryExpression fields queryProc keepProc
        backupW finalW restoreW).1.get (databaseFile ++ ".bak") = none) := by
  constructor
  · simp only [DeleteRecords]
    repeat' split
    all_goals intro h
    all_goals first
      | exact FS.get_remove_self _ _
      | simp at h
  · simp only [UpdateRecords]
    repeat' split
    all_goals intro h
    all_goals first
      | exact FS.get_remove_self _ _
      | simp at h

/-- C6 witness: a concrete successful delete and a concrete successful update
leave no backup file. -/
theorem success_implies_backup_removed_witness :
    ((DeleteRecords none ⟨[("db.rec", "a: 1\n")]⟩ "db.rec" "x"
        ⟨1, true, "a: 1\n", ""⟩ .ok .ok .ok).1.get "db.rec.bak" = none)
    ∧ ((UpdateRecords none ⟨[("db.rec", "a: 1\n")]⟩ "db.rec" "x" [("a", "2")]
        ⟨1, true, "a: 1\n", ""⟩ ⟨1, true, "", ""⟩ .ok .ok .ok).1.get "db.rec.bak" = none) := by
  constructor
  · exact (success_implies_backup_removed none ⟨[("db.rec", "a: 1\n")]⟩ "db.rec" "x"
      [("a", "2")] ⟨1, true, "a: 1\n", ""⟩ ⟨1, true, "a: 1\n", ""⟩ .ok .ok .ok).1 (by decide)
  · exact (success_implies_backup_removed none ⟨[("db.rec", "a: 1\n")]⟩ "db.rec" "x"
      [("a", "2")] ⟨1, true, "a: 1\n", ""⟩ ⟨1, true, "", ""⟩ .ok .ok .ok).2 (by decide)

/-- C5 counterexample: the claim says delete surfaces transient I/O failures
in the Result only, with a nil propagating error; but a delete whose read of
the store fails returns a non-nil error (operations.go line 145). -/
theorem delete_read_failure_returns_error :
    (DeleteRecords none ⟨[]⟩ "db.rec" "x" ⟨1, true, "", ""⟩ .ok .ok .ok).2.2 ≠ none := by
  decide

/-- C5 amended: insert propagates stat and write failures as non-nil errors,
and delete and update equally propagate their own I/O failures (read of the
store, backup write, final write) as non-nil errors; nil propagating errors
arise only when the external evaluation command is what failed, and query
always returns a nil error. -/
theorem io_failures_propagate_errors (ctx : Option Nat) (fs : FS)
    (databaseFile recordType queryExpression outputFormat : String)
    (fields : List (String × String)) (orig w m statm : String)
    (proc queryProc keepProc : CmdBehavior)
    (backupW finalW restoreW createW : WriteOutcome) :
    (fs.get databaseFile = none →
      (InsertRecord ctx fs databaseFile recordType fields none (.fail w m) proc).2.2.1
        = some ("failed to write database file: " ++ m))
    ∧ ((InsertRecord ctx fs databaseFile recordType fields (some statm) createW proc).2.2.1
        = some ("failed to stat database file: " ++ statm))
    ∧ (fs.get databaseFile = none →
      (DeleteRecords ctx fs databaseFile queryExpression keepProc backupW finalW
        restoreW).2.2 = some ("failed to read database file: " ++ noSuchFile databaseFile))
    ∧ (fs.get databaseFile = some orig →
      (DeleteRecords ctx fs databaseFile queryExpression keepProc (.fail w m) finalW
        restoreW).2.2 = some ("failed to create backup: " ++ m))
    ∧ (fs.get databaseFile = some orig →
      (executeRecCommand ctx ["recsel", "-e", "!(" ++ queryExpression ++ ")", databaseFile]
        "" keepProc).1.success = true →
      (DeleteRecords ctx fs databaseFile queryExpression keepProc .ok (.fail w m)
        restoreW).2.2 = some ("failed to write database file: " ++ m))
    ∧ (fs.get databaseFile = some orig →
      (executeRecCommand ctx ["recsel", "-e", "!(" ++ queryExpression ++ ")", databaseFile]
        "" keepProc).1.success = false →
      (DeleteRecords ctx fs databaseFile queryExpression keepProc .ok finalW
        restoreW).2.2 = none)
    ∧ ((executeRecCommand ctx ["recsel", "-e", queryExpression, databaseFile] ""
        queryProc).1.success = true →
      fs.get databaseFile = none →
      (UpdateRecords ctx fs databaseFile queryExpression fields queryProc keepProc backupW
        finalW restoreW).2.2 = some ("failed to read database file: "
          ++ noSuchFile databaseFile))
    ∧ ((executeRecCommand ctx ["recsel", "-e", queryExpression, databaseFile] ""
        queryProc).1.success = true →
      fs.get databaseFile = some orig →
      (UpdateRecords ctx fs databaseFile queryExpression fields queryProc keepProc
        (.fail w m) finalW restoreW).2.2 = some ("failed to create backup: " ++ m))
    ∧ ((executeRecCommand ctx ["recsel", "-e", queryExpression, databaseFile] ""
        queryProc).1.success = true →
      fs.get databaseFile = some orig →
      (executeRecCommand ctx ["recsel", "-e", "!(" ++ queryExpression ++ ")", databaseFile]
        "" keepProc).1.success = true →
      (UpdateRecords ctx fs databaseFile queryExpression fields queryProc keepProc .ok
        (.fail w m) restoreW).2.2 = some ("failed to write database file: " ++ m))
    ∧ ((executeRecCommand ctx ["recsel", "-e", queryExpression, databaseFile] ""
        queryProc).1.success = true →
      fs.get databaseFile = some orig →
      (executeRecCommand ctx ["recsel", "-e", "!(" ++ queryExpression ++ ")", databaseFile]
        "" keepProc).1.success = false →
      (UpdateRecords ctx fs databaseFile queryExpression fields queryProc keepProc .ok
        finalW restoreW).2.2 = none)
    ∧ ((QueryRecords ctx databaseFile queryExpression outputFormat proc).2 = none) := by
  refine ⟨?_, ?_, ?_, ?_, ?_, ?_, ?_, ?_, ?_, ?_, ?_⟩
  · intro hget
    simp [InsertRecord, statFile, hget, writeFile]
  · simp [InsertRecord, statFile]
  · intro hget
    simp [DeleteRecords, hget]
  · intro hget
    simp [DeleteRecords, hget, writeFile]
  · intro hget hkeep
    simp [DeleteRecords, hget, writeFile, hkeep]
  · intro hget hkeep
    simp [DeleteRecords, hget, writeFile, hkeep]
  · intro hq hget
    simp [UpdateRecords, execErrNone, hq, hget]
  · intro hq hget
    simp [UpdateRecords, execErrNone, hq, hget, writeFile]
  · intro hq hget hkeep
    simp [UpdateRecords, execErrNone, hq, hget, writeFile, hkeep]
  · intro hq hget hkeep
    simp [UpdateRecords, execErrNone, hq, hget, writeFile, hkeep]
  · simp only [QueryRecords]
    exact execErrNone ctx _ "" proc

/-- C5 amended witness: concrete instances of the propagation behaviour. -/
theorem io_failures_propagate_errors_witness :
    ((InsertRecord none ⟨[]⟩ "db.rec" "T" [("a", "1")] none (.fail "" "disk full")
        ⟨1, true, "", ""⟩).2.2.1 = some "failed to write database file: disk full")
    ∧ ((DeleteRecords none ⟨[("db.rec", "a: 1\n")]⟩ "db.rec" "x" ⟨1, true, "a: 1\n", ""⟩
        .ok (.fail "" "disk full") .ok).2.2
          = some "failed to write database file: disk full")
    ∧ ((UpdateRecords none ⟨[("db.rec", "a: 1\n")]⟩ "db.rec" "x" [("a", "2")]
        ⟨1, true, "a: 1\n", ""⟩ ⟨1, true, "", ""⟩ (.fail "" "denied") .ok .ok).2.2
          = some "failed to create backup: denied") := by
  refine ⟨?_, ?_, ?_⟩
  · exact (io_failures_propagate_errors none ⟨[]⟩ "db.rec" "T" "x" "" [("a", "1")]
      "" "" "disk full" "" ⟨1, true, "", ""⟩ ⟨1, true, "", ""⟩ ⟨1, true, "", ""⟩
      .ok .ok .ok .ok).1 (by decide)
  · exact (io_failures_propagate_errors none ⟨[("db.rec", "a: 1\n")]⟩ "db.rec" "T" "x" ""
      [("a", "1")] "a: 1\n" "" "disk full" "" ⟨1, true, "", ""⟩ ⟨1, true, "", ""⟩
      ⟨1, true, "a: 1\n", ""⟩ .ok .ok .ok .ok).2.2.2.2.1 (by decide) (by decide)
  · exact (io_failures_propagate_errors none ⟨[("db.rec", "a: 1\n")]⟩ "db.rec" "T" "x" ""
      [("a", "2")] "a: 1\n" "" "denied" "" ⟨1, true, "", ""⟩ ⟨1, true, "a: 1\n", ""⟩
      ⟨1, true, "", ""⟩ .ok .ok .ok .ok).2.2.2.2.2.2.2.1 (by decide) (by decide)

/-- C3 counterexample: the claim says that on insert into an existing
non-empty store the engine inspects the final byte, writes a healing newline
when it is missing, and itself appends a blank line plus the record lines.
On a store whose final byte is not a newline, the engine's full action trace
is the single recins invocation: it performs no write at all and the
filesystem is untouched by the engine, refuting the claimed engine-level
append behaviour. -/
theorem insert_append_performs_no_engine_write :
    (InsertRecord none ⟨[("db.rec", "a: 1")]⟩ "db.rec" "T" [("b", "2")] none .ok
        ⟨1, true, "", ""⟩).2.2.2
      = [Action.exec ["recins", "-t", "T", "-r", "b: 2", "db.rec"]]
    ∧ ((InsertRecord none ⟨[("db.rec", "a: 1")]⟩ "db.rec" "T" [("b", "2")] none .ok
        ⟨1, true, "", ""⟩).2.2.2.all (fun a => !a.isWrite) = true)
    ∧ (InsertRecord none ⟨[("db.rec", "a: 1")]⟩ "db.rec" "T" [("b", "2")] none .ok
        ⟨1, true, "", ""⟩).1 = ⟨[("db.rec", "a: 1")]⟩ := by
  decide

/-- C3 amended: for every insert into an existing non-empty store file the
engine neither inspects nor modifies the file's bytes itself — it delegates
the append to the external recins command, invoked with the record type after
-t and the newline-joined field lines after -r; the engine's filesystem state
is unchanged and its only action is that invocation. -/
theorem insert_append_delegates_to_recins (ctx : Option Nat) (fs : FS)
    (databaseFile recordType c : String) (fields : List (String × String))
    (createW : WriteOutcome) (proc : CmdBehavior)
    (hget : fs.get databaseFile = some c) (hne : c.length ≠ 0) :
    (InsertRecord ctx fs databaseFile recordType fields none createW proc).2.2.2
      = [Action.exec ["recins", "-t", recordType, "-r",
          goJoin "\n" (fields.map (fun f => f.1 ++ ": " ++ f.2)), databaseFile]]
    ∧ (InsertRecord ctx fs databaseFile recordType fields none createW proc).1 = fs := by
  obtain ⟨k, hk⟩ := Nat.exists_eq_succ_of_ne_zero hne
  simp only [InsertRecord, statFile, hget, hk]
  split <;> exact ⟨rfl, rfl⟩

/-- C3 amended witness: the delegation shape at a concrete input. -/
theorem insert_append_delegates_to_recins_witness :
    (InsertRecord none ⟨[("db.rec", "a: 1\n")]⟩ "db.rec" "T" [("b", "2")] none .ok
        ⟨1, true, "", ""⟩).2.2.2
      = [Action.exec ["recins", "-t", "T", "-r",
          goJoin "\n" ([("b", "2")].map (fun f => f.1 ++ ": " ++ f.2)), "db.rec"]]
    ∧ (InsertRecord none ⟨[("db.rec", "a: 1\n")]⟩ "db.rec" "T" [("b", "2")] none .ok
        ⟨1, true, "", ""⟩).1 = ⟨[("db.rec", "a: 1\n")]⟩ :=
  insert_append_delegates_to_recins none ⟨[("db.rec", "a: 1\n")]⟩ "db.rec" "T" "a: 1\n"
    [("b", "2")] .ok ⟨1, true, "", ""⟩ (by decide) (by decide)

lemma mem_dropWhile_sub {α : Type} (p : α → Bool) (l : List α) {x : α}
    (h : x ∈ l.dropWhile p) : x ∈ l := by
  induction l with
  | nil => simpa using h
  | cons a t ih =>
    by_cases hp : p a
    · rw [List.dropWhile_cons_of_pos hp] at h
      exact List.mem_cons_of_mem a (ih h)
    · rw [List.dropWhile_cons_of_neg hp] at h
      exact h

lemma mem_goTrimSpace_data {c : Char} {s : String} (h : c ∈ (goTrimSpace s).data) :
    c ∈ s.data := by
  unfold goTrimSpace at h
  rw [string_mk_data] at h
  rw [List.mem_reverse] at h
  have h2 := mem_dropWhile_sub _ _ h
  rw [List.mem_reverse] at h2
  exact mem_dropWhile_sub _ _ h2

lemma isPrefixOf_append_self (l t : List Char) : l.isPrefixOf (l ++ t) = true := by
  induction l with
  | nil => simp [List.isPrefixOf]
  | cons c cs ih => simpa [List.isPrefixOf] using ih

lemma find?_key_filter (l : List (String × String)) (p q : String) (h : q ≠ p) :
    List.find? (fun e => e.1 == p) (l.filter (fun e => !(e.1 == q)))
      = List.find? (fun e => e.1 == p) l := by
  induction l with
  | nil => rfl
  | cons a t ih =>
    by_cases hq : a.1 = q
    · have h1 : (a.1 == q) = true := by simp [hq]
      have h2 : (a.1 == p) = false := by
        simp only [beq_eq_false_iff_ne, ne_eq]
        rw [hq]
        exact h
      simp [List.filter_cons, h1, List.find?_cons, h2, ih]
    · have h1 : (a.1 == q) = false := by simp [hq]
      rcases hap : (a.1 == p) with _ | _
      · simp [List.filter_cons, h1, List.find?_cons, hap, ih]
      · simp [List.filter_cons, h1, List.find?_cons, hap]

lemma FS.get_set_self (fs : FS) (p v : String) : (fs.set p v).get p = some v := by
  unfold FS.get FS.set
  rw [List.find?_cons_of_pos _ (by simp)]
  rfl

lemma FS.get_set_ne (fs : FS) (p q v : String) (h : q ≠ p) :
    (fs.set q v).get p = fs.get p := by
  unfold FS.get FS.set
  rw [List.find?_cons_of_neg _ (by simp [h]), find?_key_filter fs.entries p q h]

lemma FS.get_remove_ne (fs : FS) (p q : String) (h : q ≠ p) :
    (fs.remove q).get p = fs.get p := by
  unfold FS.get FS.remove
  rw [find?_key_filter fs.entries p q h]

lemma bak_ne_self (s : String) : s ++ ".bak" ≠ s := by
  intro h
  have h2 := congrArg (fun x : String => x.data.length) h
  simp [string_data_append] at h2

lemma splitNl_append_cons_nl (a b : List Char) (D : List (List Char)) (g : List Char)
    (h : splitNl a = D ++ [g]) :
    splitNl (a ++ '\n' :: b) = D ++ g :: splitNl b := by
  induction a generalizing D g with
  | nil =>
    have hs : splitNl ([] : List Char) = [[]] := rfl
    rw [hs] at h
    rcases D with _ | ⟨d0, D2⟩
    · simp at h
      rw [List.nil_append, splitNl_cons_nl, h]
      rfl
    · rw [List.cons_append] at h
      have h2 := congrArg List.length h
      simp at h2
  | cons c cs ih =>
    by_cases hc : c = '\n'
    · subst hc
      rw [splitNl_cons_nl] at h
      rcases D with _ | ⟨d0, D2⟩
      · rw [List.nil_append] at h
        have h2 := congrArg List.tail h
        simp at h2
        exact absurd h2 (splitNl_ne_nil cs)
      · rw [List.cons_append] at h
        have hd : d0 = [] := (List.cons.injEq _ _ _ _ ▸ h).1.symm
        have ht : splitNl cs = D2 ++ [g] := by
          have := congrArg List.tail h
          simpa using this
        subst hd
        rw [List.cons_append, splitNl_cons_nl, ih D2 g ht, List.cons_append]
    · rcases hcs : splitNl cs with _ | ⟨H, T⟩
      · exact absurd hcs (splitNl_ne_nil cs)
      rw [splitNl_cons_other c cs hc, hcs] at h
      simp only [List.headD_cons, List.tail_cons] at h
      rcases D with _ | ⟨d0, D2⟩
      · rw [List.nil_append] at h
        have hg : g = c :: H := (List.cons.injEq _ _ _ _ ▸ h).1.symm
        have hT : T = [] := by
          have := congrArg List.tail h
          simpa using this
        subst hg hT
        have hcs2 : splitNl cs = [] ++ [H] := by rw [hcs]; rfl
        rw [List.cons_append, splitNl_cons_other c _ hc, ih [] H hcs2]
        simp
      · rw [List.cons_append] at h
        have hd : d0 = c :: H := (List.cons.injEq _ _ _ _ ▸ h).1.symm
        have hT : T = D2 ++ [g] := by
          have := congrArg List.tail h
          simpa using this
        subst hd
        have hcs2 : splitNl cs = (H :: D2) ++ [g] := by rw [hcs, hT]; rfl
        rw [List.cons_append, splitNl_cons_other c _ hc, ih (H :: D2) g hcs2]
        simp

lemma declAny_nil : declAny [] = false := by decide

lemma declAny_append_cons_nl (a b : List Char) :
    declAny (a ++ '\n' :: b) = (declAny a || declAny b) := by
  have hne := splitNl_ne_nil a
  have hdecomp : splitNl a = (splitNl a).dropLast ++ [(splitNl a).getLast hne] :=
    (List.dropLast_append_getLast hne).symm
  unfold declAny
  rw [splitNl_append_cons_nl a b _ _ hdecomp]
  conv_rhs => rw [hdecomp]
  simp [List.any_append, Bool.or_assoc]

lemma declAny_no_nl (l : List Char) (h : '\n' ∉ l) : declAny l = lineIsDecl l := by
  unfold declAny
  rw [splitNl_no_nl l h]
  simp

lemma any_map_list {A B : Type} (f : A → B) (p : B → Bool) (l : List A) :
    (l.map f).any p = l.any (fun a => p (f a)) := by
  induction l with
  | nil => rfl
  | cons a t ih => simp [List.any_cons, ih]

lemma declPresent_eq_declAny (s : String) : declPresent s = declAny s.data := by
  unfold declPresent declAny goSplitLines lineIsDecl
  rw [any_map_list]

lemma declAny_goJoin (ls : List String) (h : ∀ l ∈ ls, '\n' ∉ l.data) :
    declAny (goJoin "\n" ls).data = ls.any (fun l => lineIsDecl l.data) := by
  induction ls with
  | nil => decide
  | cons x xs ih =>
    cases xs with
    | nil =>
      have hx : '\n' ∉ x.data := h x (List.mem_cons_self x [])
      show declAny x.data = _
      rw [declAny_no_nl x.data hx]
      simp
    | cons y ys =>
      have hx : '\n' ∉ x.data := h x (List.mem_cons_self x (y :: ys))
      have hrest : ∀ l ∈ y :: ys, '\n' ∉ l.data := fun l hl => h l (List.mem_cons_of_mem x hl)
      have hdata : (x ++ "\n" ++ goJoin "\n" (y :: ys)).data
          = x.data ++ '\n' :: (goJoin "\n" (y :: ys)).data := by
        simp [string_data_append]
      show declAny (x ++ "\n" ++ goJoin "\n" (y :: ys)).data = _
      rw [hdata, declAny_append_cons_nl, declAny_no_nl x.data hx, ih hrest]
      simp

lemma extract_of_no_decl (s : String) (h : declPresent s = false) :
    extractRecordTypeDeclaration s = "" := by
  unfold extractRecordTypeDeclaration
  have hfind : (goSplitLines s).find?
      (fun line => goStartsWith (goTrimSpace line) "%rec:") = none := by
    rw [List.find?_eq_none]
    intro x hx
    unfold declPresent at h
    rw [List.any_eq_false] at h
    simpa using h x hx
  rw [hfind]

lemma extract_shape (s : String) :
    extractRecordTypeDeclaration s = ""
    ∨ ('\n' ∉ (extractRecordTypeDeclaration s).data
        ∧ isDeclLine (extractRecordTypeDeclaration s).data = true) := by
  unfold extractRecordTypeDeclaration
  rcases hf : (goSplitLines s).find?
      (fun line => goStartsWith (goTrimSpace line) "%rec:") with _ | line
  · exact Or.inl rfl
  · right
    have hpred := List.find?_some hf
    have hmem := List.mem_of_find?_eq_some hf
    constructor
    · intro hnl
      have h1 : '\n' ∈ line.data := mem_goTrimSpace_data hnl
      obtain ⟨lc, hlc, hmk⟩ := List.mem_map.mp hmem
      have : line.data = lc := by rw [← hmk]
      rw [this] at h1
      exact mem_splitNl_no_nl _ lc hlc h1
    · exact hpred

lemma declAny_cons_nl (b : List Char) : declAny ('\n' :: b) = declAny b := by
  have h := declAny_append_cons_nl [] b
  simpa [declAny_nil] using h

lemma declAny_concat_nl (l : List Char) : declAny (l ++ ['\n']) = declAny l := by
  have h := declAny_append_cons_nl l []
  simpa [declAny_nil] using h

/-- C7: an insert into a missing or zero-length store writes exactly the
declaration line built from the record type, one blank line, the field lines,
and a trailing newline; and no other engine path originates a declaration —
the destructive rewrites only re-emit one extracted from the original
content, so whenever the original store and the evaluation outputs carry no
declaration, the content that delete or update leaves in the store carries
none either. -/
theorem insert_create_sole_declaration_origin (ctx : Option Nat) (fs : FS)
    (databaseFile recordType queryExpression orig : String)
    (fields : List (String × String)) (proc queryProc keepProc : CmdBehavior) :
    (fs.get databaseFile = none →
      (InsertRecord ctx fs databaseFile recordType fields none .ok proc).1.get databaseFile
        = some ("%rec: " ++ recordType ++ "\n\n"
            ++ goJoin "\n" (fields.map (fun f => f.1 ++ ": " ++ f.2)) ++ "\n"))
    ∧ (fs.get databaseFile = some "" →
      (InsertRecord ctx fs databaseFile recordType fields none .ok proc).1.get databaseFile
        = some ("%rec: " ++ recordType ++ "\n\n"
            ++ goJoin "\n" (fields.map (fun f => f.1 ++ ": " ++ f.2)) ++ "\n"))
    ∧ (fs.get databaseFile = some orig → declPresent orig = false →
      declPresent (executeRecCommand ctx
        ["recsel", "-e", "!(" ++ queryExpression ++ ")", databaseFile] "" keepProc).1.output
          = false →
      ∀ content, (DeleteRecords ctx fs databaseFile queryExpression keepProc .ok .ok
          .ok).1.get databaseFile = some content →
        declPresent content = false)
    ∧ (fs.get databaseFile = some orig → declPresent orig = false →
      declPresent (executeRecCommand ctx
        ["recsel", "-e", "!(" ++ queryExpression ++ ")", databaseFile] "" keepProc).1.output
          = false →
      (∀ l ∈ updateFieldsPass (matchedLines (executeRecCommand ctx
          ["recsel", "-e", queryExpression, databaseFile] "" queryProc).1.output) fields,
        lineIsDecl l.data = false ∧ '\n' ∉ l.data) →
      ∀ content, (UpdateRecords ctx fs databaseFile queryExpression fields queryProc
          keepProc .ok .ok .ok).1.get databaseFile = some content →
        declPresent content = false) := by
  have hbak := bak_ne_self databaseFile
  refine ⟨?_, ?_, ?_, ?_⟩
  · intro hget
    simp only [InsertRecord, statFile, hget, writeFile]
    exact FS.get_set_self fs databaseFile _
  · intro hget
    simp only [InsertRecord, statFile, hget, writeFile, String.length]
    exact FS.get_set_self fs databaseFile _
  · intro hget horig hkeep content hcontent
    have hd : extractRecordTypeDeclaration orig = "" := extract_of_no_decl orig horig
    by_cases hs : (executeRecCommand ctx
        ["recsel", "-e", "!(" ++ queryExpression ++ ")", databaseFile] "" keepProc).1.success
    · simp only [DeleteRecords, hget, writeFile, hs, if_true] at hcontent
      rw [FS.get_remove_ne _ _ _ hbak, FS.get_set_self] at hcontent
      obtain rfl : deleteOutput (extractRecordTypeDeclaration orig)
          (executeRecCommand ctx ["recsel", "-e", "!(" ++ queryExpression ++ ")",
            databaseFile] "" keepProc).1.output = content := by
        exact Option.some.inj hcontent
      rw [hd]
      unfold deleteOutput
      by_cases hko : (executeRecCommand ctx ["recsel", "-e", "!(" ++ queryExpression
          ++ ")", databaseFile] "" keepProc).1.output = ""
      · simp [hko]
        decide
      · rw [declPresent_eq_declAny] at hkeep ⊢
        simp only [bne_self_eq_false, Bool.false_eq_true, if_false, hko, bne_iff_ne,
          ne_eq, not_false_eq_true, if_true, string_data_append]
        have hnn : ("\n" : String).data = ['\n'] := rfl
        simp [hnn, declAny_concat_nl, hkeep]
    · simp [DeleteRecords, hget, writeFile, hs] at hcontent
      rw [FS.get_remove_ne _ _ _ hbak, FS.get_set_ne _ _ _ _ hbak,
        FS.get_set_ne _ _ _ _ hbak, hget] at hcontent
      obtain rfl : orig = content := Option.some.inj hcontent
      exact horig
  · intro hget horig hkeep hlines content hcontent
    have hd : extractRecordTypeDeclaration orig = "" := extract_of_no_decl orig horig
    have herr := execErrNone ctx ["recsel", "-e", queryExpression, databaseFile] "" queryProc
    by_cases hq : (executeRecCommand ctx ["recsel", "-e", queryExpression, databaseFile]
        "" queryProc).1.success
    · by_cases hs : (executeRecCommand ctx
          ["recsel", "-e", "!(" ++ queryExpression ++ ")", databaseFile] "" keepProc).1.success
      · simp [UpdateRecords, herr, hq, hget, writeFile, hs] at hcontent
        rw [FS.get_remove_ne _ _ _ hbak, FS.get_set_self] at hcontent
        obtain rfl := Option.some.inj hcontent
        rw [hd]
        unfold updateOutput
        set keepOut := (executeRecCommand ctx ["recsel", "-e", "!(" ++ queryExpression
          ++ ")", databaseFile] "" keepProc).1.output with hkeepdef
        set upd := updateFieldsPass (matchedLines (executeRecCommand ctx
          ["recsel", "-e", queryExpression, databaseFile] "" queryProc).1.output) fields
          with hupddef
        have hJ : declAny (goJoin "\n" upd).data = false := by
          rw [declAny_goJoin upd (fun l hl => (hlines l hl).2)]
          rw [List.any_eq_false]
          intro l hl
          simp [(hlines l hl).1]
        rw [declPresent_eq_declAny] at hkeep ⊢
        have hnn : ("\n" : String).data = ['\n'] := rfl
        have hnn2 : ("\n\n" : String).data = ['\n', '\n'] := rfl
        by_cases hko : keepOut = ""
        · by_cases hul : upd.length > 0
          · simp [hko, hul, string_data_append, hnn, declAny_concat_nl, hJ]
          · simp [hko, hul]
            decide
        · by_cases hul : upd.length > 0
          · simp only [bne_self_eq_false, Bool.false_eq_true, if_false, hko, bne_iff_ne,
              ne_eq, not_false_eq_true, if_true, hul, string_data_append, hnn, hnn2]
            simp only [List.nil_append, List.append_assoc, List.cons_append,
              List.nil_append]
            rw [declAny_append_cons_nl keepOut.data]
            rw [declAny_cons_nl, declAny_concat_nl, hkeep, hJ]
            rfl
          · simp [hko, hul, hkeep]
      · simp [UpdateRecords, herr, hq, hget, writeFile, hs] at hcontent
        rw [FS.get_remove_ne _ _ _ hbak, FS.get_set_ne _ _ _ _ hbak,
          FS.get_set_ne _ _ _ _ hbak, hget] at hcontent
        obtain rfl := Option.some.inj hcontent
        exact horig
    · simp [UpdateRecords, herr, hq] at hcontent
      rw [hget] at hcontent
      obtain rfl := Option.some.inj hcontent
      exact horig

/-- C7 witness: concrete create-path content and a concrete delete that
introduces no declaration. -/
theorem insert_create_sole_declaration_origin_witness :
    ((InsertRecord none ⟨[]⟩ "db.rec" "Person" [("Name", "John")] none .ok
        ⟨1, true, "", ""⟩).1.get "db.rec"
      = some ("%rec: " ++ "Person" ++ "\n\n"
          ++ goJoin "\n" ([("Name", "John")].map (fun f => f.1 ++ ": " ++ f.2)) ++ "\n"))
    ∧ declPresent "a: 1\n" = false := by
  constructor
  · exact (insert_create_sole_declaration_origin none ⟨[]⟩ "db.rec" "Person" "x" "a: 1\n"
      [("Name", "John")] ⟨1, true, "", ""⟩ ⟨1, true, "", ""⟩ ⟨1, true, "a: 1\n", ""⟩).1
      (by decide)
  · exact (insert_create_sole_declaration_origin none ⟨[("db.rec", "a: 1\n")]⟩ "db.rec"
      "Person" "x" "a: 1\n" [("Name", "John")] ⟨1, true, "", ""⟩ ⟨1, true, "", ""⟩
      ⟨1, true, "a: 1\n", ""⟩).2.2.1 (by decide) (by decide) (by decide) "a: 1\n"
      (by decide)

lemma isEmpty_false_of_ne_nil {x : List Char} (h : x ≠ []) : x.isEmpty = false := by
  cases x with
  | nil => exact absurd rfl h
  | cons c cs => rfl

lemma rendered_line_ne_nil (a b : String) : (a ++ ": " ++ b).data ≠ [] := by
  intro h
  have h2 := congrArg List.length h
  simp [string_data_append] at h2

lemma noTwoBlank_of_all_nonblank (region : List (List Char))
    (h : ∀ l ∈ region, l ≠ []) : noTwoBlank region = true := by
  induction region with
  | nil => rfl
  | cons x t ih =>
    cases t with
    | nil => rfl
    | cons y r =>
      have hx := isEmpty_false_of_ne_nil (h x (List.mem_cons_self x _))
      have hrest : ∀ l ∈ y :: r, l ≠ [] := fun l hl => h l (List.mem_cons_of_mem x hl)
      show (!(x.isEmpty && y.isEmpty) && noTwoBlank (y :: r)) = true
      rw [hx, ih hrest]
      rfl

lemma lastNonblank_cons_cons (x y : List Char) (r : List (List Char)) :
    lastNonblank (x :: y :: r) = lastNonblank (y :: r) := by
  unfold lastNonblank
  rw [List.getLast?_cons_cons]

lemma lastNonblank_of_all_nonblank (region : List (List Char)) (hne : region ≠ [])
    (h : ∀ l ∈ region, l ≠ []) : lastNonblank region = true := by
  induction region with
  | nil => exact absurd rfl hne
  | cons x t ih =>
    cases t with
    | nil =>
      have hx := isEmpty_false_of_ne_nil (h x (List.mem_cons_self x _))
      unfold lastNonblank
      simp [hx]
    | cons y r =>
      rw [lastNonblank_cons_cons]
      exact ih (by simp) (fun l hl => h l (List.mem_cons_of_mem x hl))

lemma recordsRegionOK_of_all_nonblank (region : List (List Char))
    (h : ∀ l ∈ region, l ≠ []) : recordsRegionOK region = true := by
  cases region with
  | nil => rfl
  | cons x t =>
    show (firstNonblank (x :: t) && lastNonblank (x :: t) && noTwoBlank (x :: t)) = true
    have h1 : firstNonblank (x :: t) = true := by
      show (!x.isEmpty) = true
      rw [isEmpty_false_of_ne_nil (h x (List.mem_cons_self x _))]
      rfl
    rw [h1, lastNonblank_of_all_nonblank (x :: t) (by simp) h,
      noTwoBlank_of_all_nonblank (x :: t) h]
    rfl

lemma noTwoBlank_append_blank (K U : List (List Char)) (hU : ∀ l ∈ U, l ≠ [])
    (hUne : U ≠ []) (hK : noTwoBlank K = true) (hKl : lastNonblank K = true) :
    noTwoBlank (K ++ [] :: U) = true := by
  induction K with
  | nil => exact absurd hKl (by simp [lastNonblank])
  | cons x t ih =>
    cases t with
    | nil =>
      have hx : x.isEmpty = false := by
        unfold lastNonblank at hKl
        simpa using hKl
      rcases U with _ | ⟨u0, ur⟩
      · exact absurd rfl hUne
      have hu0 := isEmpty_false_of_ne_nil (hU u0 (List.mem_cons_self u0 ur))
      show (!(x.isEmpty && List.isEmpty []) && noTwoBlank ([] :: u0 :: ur)) = true
      rw [hx]
      show noTwoBlank ([] :: u0 :: ur) = true
      show (!(List.isEmpty [] && u0.isEmpty) && noTwoBlank (u0 :: ur)) = true
      rw [hu0, noTwoBlank_of_all_nonblank (u0 :: ur) hU]
      rfl
    | cons y r =>
      have hK12 : (!(x.isEmpty && y.isEmpty)) = true ∧ noTwoBlank (y :: r) = true := by
        have hK0 : (!(x.isEmpty && y.isEmpty) && noTwoBlank (y :: r)) = true := hK
        simpa [Bool.and_eq_true] using hK0
      obtain ⟨hpair, hK2⟩ := hK12
      have hKl2 : lastNonblank (y :: r) = true := by
        rw [lastNonblank_cons_cons] at hKl
        exact hKl
      show (!(x.isEmpty && y.isEmpty) && noTwoBlank ((y :: r) ++ [] :: U)) = true
      rw [hpair, ih hK2 hKl2]
      rfl

lemma lastNonblank_append_cons (A : List (List Char)) (x : List Char)
    (B : List (List Char)) (h : lastNonblank (x :: B) = true) :
    lastNonblank (A ++ x :: B) = true := by
  unfold lastNonblank at h ⊢
  rw [List.getLast?_append]
  rcases hg : (x :: B).getLast? with _ | l
  · rw [hg] at h
    exact absurd h (by simp)
  · rw [hg] at h
    exact h

lemma splitNl_goJoin (ls : List String) (hne : ls ≠ []) (h : ∀ l ∈ ls, '\n' ∉ l.data) :
    splitNl (goJoin "\n" ls).data = ls.map String.data := by
  induction ls with
  | nil => exact absurd rfl hne
  | cons x xs ih =>
    cases xs with
    | nil =>
      show splitNl x.data = [x.data]
      exact splitNl_no_nl x.data (h x (List.mem_cons_self x _))
    | cons y ys =>
      have hx : '\n' ∉ x.data := h x (List.mem_cons_self x _)
      have hrest : ∀ l ∈ y :: ys, '\n' ∉ l.data := fun l hl => h l (List.mem_cons_of_mem x hl)
      have hdata : (x ++ "\n" ++ goJoin "\n" (y :: ys)).data
          = x.data ++ '\n' :: (goJoin "\n" (y :: ys)).data := by
        simp [string_data_append]
      show splitNl (x ++ "\n" ++ goJoin "\n" (y :: ys)).data = _
      rw [hdata, splitNl_append_nl _ _ hx, ih (by simp) hrest]
      rfl

lemma applyChangesAt_length (cur : List String) (i : Nat) (line : String)
    (fs : List (String × String)) :
    cur.length ≤ (applyChangesAt cur i line fs).length := by
  induction fs generalizing cur with
  | nil => exact Nat.le_refl _
  | cons f rest ih =>
    obtain ⟨fn, fv⟩ := f
    have hnext : cur.length ≤ (if goStartsWith line (fn ++ ":")
        then cur.set i (fn ++ ": " ++ fv)
        else if cur.any (fun l => goStartsWith l (fn ++ ":")) then cur
        else cur ++ [fn ++ ": " ++ fv]).length := by
      split
      · rw [List.length_set]
      · split
        · exact Nat.le_refl _
        · simp
    exact Nat.le_trans hnext (ih _)

lemma foldl_changes_length (l : List (Nat × String)) (fields : List (String × String)) :
    ∀ cur : List String,
      cur.length ≤ (l.foldl (fun cur p => applyChangesAt cur p.1 p.2 fields) cur).length := by
  induction l with
  | nil => intro cur; exact Nat.le_refl _
  | cons p t ih =>
    intro cur
    exact Nat.le_trans (applyChangesAt_length cur p.1 p.2 fields) (ih _)

lemma updateFieldsPass_ne_nil (rec0 : List String) (fields : List (String × String))
    (h : rec0 ≠ []) : updateFieldsPass rec0 fields ≠ [] := by
  have hlen := foldl_changes_length rec0.enum fields rec0
  intro hnil
  unfold updateFieldsPass at hnil
  rw [hnil] at hlen
  simp at hlen
  exact h hlen

lemma invariant_of_decl_parts (content : String) (d : List Char) (r2 : List (List Char))
    (hne : content.data ≠ [])
    (hsplit : splitNl content.data = (d :: [] :: r2) ++ [[]])
    (hd : isDeclLine d = true) (hr : recordsRegionOK r2 = true) :
    specFormatInvariant content = true := by
  simp only [specFormatInvariant, isEmpty_false_of_ne_nil hne, hsplit,
    List.getLast?_concat, List.dropLast_concat]
  simp [hd, hr]

lemma invariant_of_records_parts (content : String) (region : List (List Char))
    (hne : content.data ≠ []) (hrne : region ≠ [])
    (hsplit : splitNl content.data = region ++ [[]])
    (hnd : isDeclLine (region.headD []) = false)
    (hreg : recordsRegionOK region = true) :
    specFormatInvariant content = true := by
  rcases region with _ | ⟨d, rest⟩
  · exact absurd rfl hrne
  · simp only [List.headD_cons] at hnd
    simp only [specFormatInvariant, isEmpty_false_of_ne_nil hne, hsplit,
      List.getLast?_concat, List.dropLast_concat]
    simp [hnd, hreg]

lemma invariant_false_of_bad_tail (content : String) (body : List (List Char))
    (g : List Char) (hne : content.data ≠ [])
    (hsplit : splitNl content.data = body ++ [g]) (hg : g ≠ []) :
    specFormatInvariant content = false := by
  have hbeq : (some g == some ([] : List Char)) = false := by simp [hg]
  simp only [specFormatInvariant, isEmpty_false_of_ne_nil hne, hsplit,
    List.getLast?_concat, hbeq]
  simp

lemma getLast_nonblank (K : List (List Char)) (hne : K ≠ [])
    (h : lastNonblank K = true) : K.getLast hne ≠ [] := by
  unfold lastNonblank at h
  rw [List.getLast?_eq_getLast K hne] at h
  intro hnil
  rw [hnil] at h
  simp at h

lemma recordsRegionOK_eq_of_ne_nil (region : List (List Char)) (h : region ≠ []) :
    recordsRegionOK region
      = (firstNonblank region && lastNonblank region && noTwoBlank region) := by
  rcases region with _ | ⟨x, t⟩
  · exact absurd rfl h
  · rfl

lemma firstNonblank_append (A X : List (List Char)) (h : A ≠ []) :
    firstNonblank (A ++ X) = firstNonblank A := by
  rcases A with _ | ⟨a, t⟩
  · exact absurd rfl h
  · rfl

lemma headD_append (A X : List (List Char)) (y : List Char) (h : A ≠ []) :
    (A ++ X).headD y = A.headD y := by
  rcases A with _ | ⟨a, t⟩
  · exact absurd rfl h
  · rfl

lemma wfRecordBlock_parts (b : String) (h : wfRecordBlock b = true) :
    b.data ≠ [] ∧ firstNonblank (splitNl b.data) = true
    ∧ lastNonblank (splitNl b.data) = true ∧ noTwoBlank (splitNl b.data) = true
    ∧ isDeclLine ((splitNl b.data).headD []) = false := by
  unfold wfRecordBlock at h
  simp only [Bool.and_eq_true] at h
  obtain ⟨⟨⟨⟨h1, h2⟩, h3⟩, h4⟩, h5⟩ := h
  refine ⟨?_, h2, h3, h4, ?_⟩
  · intro hnil
    rw [hnil] at h1
    simp at h1
  · simpa using h5

lemma nl_data : ("\n" : String).data = ['\n'] := rfl

lemma nlnl_data : ("\n\n" : String).data = ['\n', '\n'] := rfl

lemma decl_prefix_data (recordType : String) :
    ("%rec: " ++ recordType).data = "%rec:".data ++ (' ' :: recordType.data) := by
  have h1 : ("%rec: " : String).data = "%rec:".data ++ [' '] := rfl
  rw [string_data_append, h1, List.append_assoc]
  rfl

lemma decl_line_is_decl (recordType : String) :
    isDeclLine ("%rec: " ++ recordType).data = true := by
  unfold isDeclLine
  rw [decl_prefix_data]
  exact isPrefixOf_append_self _ _

lemma decl_line_no_nl (recordType : String) (h : '\n' ∉ recordType.data) :
    '\n' ∉ ("%rec: " ++ recordType).data := by
  rw [string_data_append]
  intro hmem
  rcases List.mem_append.mp hmem with h1 | h1
  · exact absurd h1 (by decide)
  · exact h h1

/-- Invariant of the content written by the insert create path. -/
lemma insertContent_invariant (recordType : String) (fields : List (String × String))
    (hfne : fields ≠ []) (hfnl : ∀ f ∈ fields, '\n' ∉ (f.1 ++ ": " ++ f.2).data)
    (hrtnl : '\n' ∉ recordType.data) :
    specFormatInvariant ("%rec: " ++ recordType ++ "\n\n"
      ++ goJoin "\n" (fields.map (fun f => f.1 ++ ": " ++ f.2)) ++ "\n") = true := by
  set L := fields.map (fun f => f.1 ++ ": " ++ f.2) with hL
  have hLne : L ≠ [] := by
    rw [hL]
    intro hmap
    exact hfne (List.map_eq_nil_iff.mp hmap)
  have hLnl : ∀ l ∈ L, '\n' ∉ l.data := by
    intro l hl
    obtain ⟨f, hf, rfl⟩ := List.mem_map.mp (hL ▸ hl)
    exact hfnl f hf
  have hLnn : ∀ u ∈ L.map String.data, u ≠ [] := by
    intro u hu
    obtain ⟨l, hl, rfl⟩ := List.mem_map.mp hu
    obtain ⟨f, hf, rfl⟩ := List.mem_map.mp (hL ▸ hl)
    exact rendered_line_ne_nil f.1 f.2
  have hdata : ("%rec: " ++ recordType ++ "\n\n" ++ goJoin "\n" L ++ "\n").data
      = ("%rec: " ++ recordType).data ++ '\n' :: '\n' :: ((goJoin "\n" L).data ++ ['\n']) := by
    simp [string_data_append, nl_data, nlnl_data]
  apply invariant_of_decl_parts _ ("%rec: " ++ recordType).data (L.map String.data)
  · rw [hdata]
    simp
  · rw [hdata, splitNl_append_nl _ _ (decl_line_no_nl recordType hrtnl), splitNl_cons_nl,
      splitNl_concat_nl, splitNl_goJoin L hLne hLnl]
    rfl
  · exact decl_line_is_decl recordType
  · exact recordsRegionOK_of_all_nonblank _ hLnn

/-- Invariant of the content written by the delete rebuild. -/
lemma deleteOutput_invariant (decl keepOut : String)
    (hd : decl = "" ∨ ('\n' ∉ decl.data ∧ isDeclLine decl.data = true))
    (hk : keepOut = "" ∨ wfRecordBlock keepOut = true) :
    specFormatInvariant (deleteOutput decl keepOut) = true := by
  rcases hd with hd0 | ⟨hdnl, hdecl⟩
  · subst hd0
    rcases hk with hk0 | hwf
    · subst hk0
      decide
    · obtain ⟨hbne, hfirst, hlast, htwo, hhead⟩ := wfRecordBlock_parts keepOut hwf
      have hkne : keepOut ≠ "" := fun h => hbne (by rw [h])
      have hdata : (deleteOutput "" keepOut).data = keepOut.data ++ ['\n'] := by
        simp [deleteOutput, hkne, string_data_append, nl_data]
      apply invariant_of_records_parts _ (splitNl keepOut.data)
      · rw [hdata]
        simp
      · exact splitNl_ne_nil _
      · rw [hdata, splitNl_concat_nl]
      · exact hhead
      · rw [recordsRegionOK_eq_of_ne_nil _ (splitNl_ne_nil _), hfirst, hlast, htwo]
        rfl
  · have hdne : decl ≠ "" := by
      intro h
      rw [h] at hdecl
      exact absurd hdecl (by decide)
    rcases hk with hk0 | hwf
    · subst hk0
      have hdata : (deleteOutput decl "").data = decl.data ++ '\n' :: ['\n'] := by
        simp [deleteOutput, hdne, string_data_append, nlnl_data]
      apply invariant_of_decl_parts _ decl.data []
      · rw [hdata]
        simp
      · rw [hdata, splitNl_append_nl _ _ hdnl, splitNl_cons_nl]
        rfl
      · exact hdecl
      · rfl
    · obtain ⟨hbne, hfirst, hlast, htwo, hhead⟩ := wfRecordBlock_parts keepOut hwf
      have hkne : keepOut ≠ "" := fun h => hbne (by rw [h])
      have hdata : (deleteOutput decl keepOut).data
          = decl.data ++ '\n' :: '\n' :: (keepOut.data ++ ['\n']) := by
        simp [deleteOutput, hdne, hkne, string_data_append, nl_data, nlnl_data]
      apply invariant_of_decl_parts _ decl.data (splitNl keepOut.data)
      · rw [hdata]
        simp
      · rw [hdata, splitNl_append_nl _ _ hdnl, splitNl_cons_nl, splitNl_concat_nl]
        rfl
      · exact hdecl
      · rw [recordsRegionOK_eq_of_ne_nil _ (splitNl_ne_nil _), hfirst, hlast, htwo]
        rfl

/-- Invariant of the content written by the update rebuild when at least one
line was matched. -/
lemma updateOutput_invariant (decl keepOut : String) (updated : List String)
    (hd : decl = "" ∨ ('\n' ∉ decl.data ∧ isDeclLine decl.data = true))
    (hk : keepOut = "" ∨ wfRecordBlock keepOut = true)
    (hune : updated ≠ [])
    (hulines : ∀ l ∈ updated, l.data ≠ [] ∧ '\n' ∉ l.data ∧ isDeclLine l.data = false) :
    specFormatInvariant (updateOutput decl keepOut updated) = true := by
  have hlen : updated.length > 0 := List.length_pos.mpr hune
  have hJsplit : splitNl (goJoin "\n" updated).data = updated.map String.data :=
    splitNl_goJoin updated hune (fun l hl => (hulines l hl).2.1)
  have hUnn : ∀ u ∈ updated.map String.data, u ≠ [] := by
    intro u hu
    obtain ⟨l, hl, rfl⟩ := List.mem_map.mp hu
    exact (hulines l hl).1
  have hUne : updated.map String.data ≠ [] := by
    intro hmap
    exact hune (List.map_eq_nil_iff.mp hmap)
  obtain ⟨l0, lrest, hup⟩ : ∃ a t, updated = a :: t := by
    rcases updated with _ | ⟨a, t⟩
    · exact absurd rfl hune
    · exact ⟨a, t, rfl⟩
  rcases hk with hk0 | hwf
  · subst hk0
    rcases hd with hd0 | ⟨hdnl, hdecl⟩
    · subst hd0
      have hdata : (updateOutput "" "" updated).data
          = (goJoin "\n" updated).data ++ ['\n'] := by
        simp [updateOutput, hlen, string_data_append, nl_data]
      apply invariant_of_records_parts _ (updated.map String.data)
      · rw [hdata]
        simp
      · exact hUne
      · rw [hdata, splitNl_concat_nl, hJsplit]
      · rw [hup]
        simp only [List.map_cons, List.headD_cons]
        exact ((hulines l0 (by rw [hup]; exact List.mem_cons_self l0 lrest)).2.2)
      · exact recordsRegionOK_of_all_nonblank _ hUnn
    · have hdne : decl ≠ "" := by
        intro h
        rw [h] at hdecl
        exact absurd hdecl (by decide)
      have hdata : (updateOutput decl "" updated).data
          = decl.data ++ '\n' :: '\n' :: ((goJoin "\n" updated).data ++ ['\n']) := by
        simp [updateOutput, hdne, hlen, string_data_append, nl_data, nlnl_data]
      apply invariant_of_decl_parts _ decl.data (updated.map String.data)
      · rw [hdata]
        simp
      · rw [hdata, splitNl_append_nl _ _ hdnl, splitNl_cons_nl, splitNl_concat_nl, hJsplit]
        rfl
      · exact hdecl
      · exact recordsRegionOK_of_all_nonblank _ hUnn
  · obtain ⟨hbne, hfirst, hlast, htwo, hhead⟩ := wfRecordBlock_parts keepOut hwf
    have hkne : keepOut ≠ "" := fun h => hbne (by rw [h])
    have hKne := splitNl_ne_nil keepOut.data
    have hKdec : splitNl keepOut.data
        = (splitNl keepOut.data).dropLast
          ++ [(splitNl keepOut.data).getLast hKne] :=
      (List.dropLast_append_getLast hKne).symm
    have hRne : splitNl keepOut.data ++ [] :: updated.map String.data ≠ [] := by
      intro h
      exact hKne (List.append_eq_nil.mp h).1
    have hlastU : lastNonblank ([] :: updated.map String.data) = true := by
      rw [hup]
      simp only [List.map_cons]
      rw [lastNonblank_cons_cons]
      apply lastNonblank_of_all_nonblank _ (by simp)
      intro l hl
      refine hUnn l ?_
      rw [hup]
      simpa using hl
    have hr2 : recordsRegionOK (splitNl keepOut.data ++ [] :: updated.map String.data)
        = true := by
      rw [recordsRegionOK_eq_of_ne_nil _ hRne, firstNonblank_append _ _ hKne, hfirst,
        lastNonblank_append_cons _ _ _ hlastU,
        noTwoBlank_append_blank _ _ hUnn hUne htwo hlast]
      rfl
    rcases hd with hd0 | ⟨hdnl, hdecl⟩
    · subst hd0
      have hdata : (updateOutput "" keepOut updated).data
          = keepOut.data ++ '\n'
            :: ('\n' :: ((goJoin "\n" updated).data ++ ['\n'])) := by
        simp [updateOutput, hkne, hlen, string_data_append, nl_data, nlnl_data]
      apply invariant_of_records_parts _
        (splitNl keepOut.data ++ [] :: updated.map String.data)
      · rw [hdata]
        simp
      · exact hRne
      · rw [hdata, splitNl_append_cons_nl _ _ _ _ hKdec, splitNl_cons_nl,
          splitNl_concat_nl, hJsplit]
        conv_rhs => rw [hKdec]
        simp
      · rw [headD_append _ _ _ hKne]
        exact hhead
      · exact hr2
    · have hdne : decl ≠ "" := by
        intro h
        rw [h] at hdecl
        exact absurd hdecl (by decide)
      have hdata : (updateOutput decl keepOut updated).data
          = decl.data ++ '\n' :: '\n' :: (keepOut.data ++ '\n'
            :: ('\n' :: ((goJoin "\n" updated).data ++ ['\n']))) := by
        simp [updateOutput, hdne, hkne, hlen, string_data_append, nl_data, nlnl_data]
      apply invariant_of_decl_parts _ decl.data
        (splitNl keepOut.data ++ [] :: updated.map String.data)
      · rw [hdata]
        simp
      · rw [hdata, splitNl_append_nl _ _ hdnl, splitNl_cons_nl,
          splitNl_append_cons_nl _ _ _ _ hKdec, splitNl_cons_nl,
          splitNl_concat_nl, hJsplit]
        conv_rhs => rw [hKdec]
        simp
      · exact hdecl
      · exact hr2

/-- Violation written by the update rebuild when no line was matched but the
kept block is nonempty: the trailing newline is lost. -/
lemma updateOutput_no_match_violation (decl keepOut : String)
    (hd : decl = "" ∨ ('\n' ∉ decl.data ∧ isDeclLine decl.data = true))
    (hwf : wfRecordBlock keepOut = true) :
    specFormatInvariant (updateOutput decl keepOut []) = false := by
  obtain ⟨hbne, hfirst, hlast, htwo, hhead⟩ := wfRecordBlock_parts keepOut hwf
  have hkne : keepOut ≠ "" := fun h => hbne (by rw [h])
  have hKne := splitNl_ne_nil keepOut.data
  have hKdec : splitNl keepOut.data
      = (splitNl keepOut.data).dropLast ++ [(splitNl keepOut.data).getLast hKne] :=
    (List.dropLast_append_getLast hKne).symm
  have hg : (splitNl keepOut.data).getLast hKne ≠ [] :=
    getLast_nonblank _ hKne hlast
  rcases hd with hd0 | ⟨hdnl, hdecl⟩
  · subst hd0
    have hdata : (updateOutput "" keepOut []).data = keepOut.data := by
      simp [updateOutput, hkne, string_data_append]
    apply invariant_false_of_bad_tail _ (splitNl keepOut.data).dropLast
      ((splitNl keepOut.data).getLast hKne) _ _ hg
    · rw [hdata]
      exact hbne
    · rw [hdata]
      exact hKdec
  · have hdne : decl ≠ "" := by
      intro h
      rw [h] at hdecl
      exact absurd hdecl (by decide)
    have hdata : (updateOutput decl keepOut []).data
        = decl.data ++ '\n' :: '\n' :: keepOut.data := by
      simp [updateOutput, hdne, hkne, string_data_append, nlnl_data]
    apply invariant_false_of_bad_tail _
      (decl.data :: [] :: (splitNl keepOut.data).dropLast)
      ((splitNl keepOut.data).getLast hKne) _ _ hg
    · rw [hdata]
      simp
    · rw [hdata, splitNl_append_nl _ _ hdnl, splitNl_cons_nl]
      conv_lhs => rw [hKdec]
      simp

/-- C4 counterexample: the claim says every successful mutation leaves the
store satisfying the format invariant, in particular an update whose
predicate matched zero records. A zero-match update on a well-formed store
returns success but writes the store without the trailing newline, breaking
the invariant. -/
theorem update_zero_match_drops_trailing_newline :
    (UpdateRecords none ⟨[("db.rec", "%rec: T\n\na: 1\n")]⟩ "db.rec" "x" [("Age", "99")]
        ⟨1, true, "", ""⟩ ⟨1, true, "a: 1\n", ""⟩ .ok .ok .ok).2.1.success = true
    ∧ (UpdateRecords none ⟨[("db.rec", "%rec: T\n\na: 1\n")]⟩ "db.rec" "x" [("Age", "99")]
        ⟨1, true, "", ""⟩ ⟨1, true, "a: 1\n", ""⟩ .ok .ok .ok).1.get "db.rec"
      = some "%rec: T\n\na: 1"
    ∧ specFormatInvariant "%rec: T\n\na: 1" = false := by
  decide

/-- C4 amended: a successful insert-create, delete, or update with at least
one matched line leaves the store satisfying the format invariant (given
well-formed evaluation outputs), but an update whose predicate matched zero
records while keeping a nonempty record block writes the store without the
trailing newline, violating the invariant; the insert append path delegates
the write to the external recins command. -/
theorem mutations_preserve_format_invariant (ctx : Option Nat) (fs : FS)
    (databaseFile recordType queryExpression orig : String)
    (fields : List (String × String)) (proc queryProc keepProc : CmdBehavior) :
    ((fs.get databaseFile = none ∨ fs.get databaseFile = some "") →
      fields ≠ [] →
      (∀ f ∈ fields, '\n' ∉ (f.1 ++ ": " ++ f.2).data) →
      '\n' ∉ recordType.data →
      ∀ content, (InsertRecord ctx fs databaseFile recordType fields none .ok proc).1.get
          databaseFile = some content →
        specFormatInvariant content = true)
    ∧ (fs.get databaseFile = some orig →
      (executeRecCommand ctx ["recsel", "-e", "!(" ++ queryExpression ++ ")", databaseFile]
        "" keepProc).1.success = true →
      ((executeRecCommand ctx ["recsel", "-e", "!(" ++ queryExpression ++ ")", databaseFile]
          "" keepProc).1.output = ""
        ∨ wfRecordBlock (executeRecCommand ctx ["recsel", "-e", "!(" ++ queryExpression
            ++ ")", databaseFile] "" keepProc).1.output = true) →
      ∀ content, (DeleteRecords ctx fs databaseFile queryExpression keepProc .ok .ok
          .ok).1.get databaseFile = some content →
        specFormatInvariant content = true)
    ∧ (fs.get databaseFile = some orig →
      (executeRecCommand ctx ["recsel", "-e", queryExpression, databaseFile] ""
        queryProc).1.success = true →
      (executeRecCommand ctx ["recsel", "-e", "!(" ++ queryExpression ++ ")", databaseFile]
        "" keepProc).1.success = true →
      ((executeRecCommand ctx ["recsel", "-e", "!(" ++ queryExpression ++ ")", databaseFile]
          "" keepProc).1.output = ""
        ∨ wfRecordBlock (executeRecCommand ctx ["recsel", "-e", "!(" ++ queryExpression
            ++ ")", databaseFile] "" keepProc).1.output = true) →
      matchedLines (executeRecCommand ctx ["recsel", "-e", queryExpression, databaseFile]
        "" queryProc).1.output ≠ [] →
      (∀ l ∈ updateFieldsPass (matchedLines (executeRecCommand ctx ["recsel", "-e",
          queryExpression, databaseFile] "" queryProc).1.output) fields,
        l.data ≠ [] ∧ '\n' ∉ l.data ∧ isDeclLine l.data = false) →
      ∀ content, (UpdateRecords ctx fs databaseFile queryExpression fields queryProc
          keepProc .ok .ok .ok).1.get databaseFile = some content →
        specFormatInvariant content = true)
    ∧ (fs.get databaseFile = some orig →
      (executeRecCommand ctx ["recsel", "-e", queryExpression, databaseFile] ""
        queryProc).1.success = true →
      (executeRecCommand ctx ["recsel", "-e", "!(" ++ queryExpression ++ ")", databaseFile]
        "" keepProc).1.success = true →
      matchedLines (executeRecCommand ctx ["recsel", "-e", queryExpression, databaseFile]
        "" queryProc).1.output = [] →
      wfRecordBlock (executeRecCommand ctx ["recsel", "-e", "!(" ++ queryExpression
        ++ ")", databaseFile] "" keepProc).1.output = true →
      ∀ content, (UpdateRecords ctx fs databaseFile queryExpression fields queryProc
          keepProc .ok .ok .ok).1.get databaseFile = some content →
        specFormatInvariant content = false) := by
  have hbak := bak_ne_self databaseFile
  refine ⟨?_, ?_, ?_, ?_⟩
  · intro hget hfne hfnl hrtnl content hcontent
    rcases hget with h0 | h0
    · simp only [InsertRecord, statFile, h0, writeFile] at hcontent
      rw [FS.get_set_self] at hcontent
      obtain rfl := Option.some.inj hcontent
      exact insertContent_invariant recordType fields hfne hfnl hrtnl
    · simp only [InsertRecord, statFile, h0, String.length, List.length_nil,
        writeFile] at hcontent
      rw [FS.get_set_self] at hcontent
      obtain rfl := Option.some.inj hcontent
      exact insertContent_invariant recordType fields hfne hfnl hrtnl
  · intro hget hs hko content hcontent
    simp only [DeleteRecords, hget, writeFile, hs, if_true] at hcontent
    rw [FS.get_remove_ne _ _ _ hbak, FS.get_set_self] at hcontent
    obtain rfl := Option.some.inj hcontent
    exact deleteOutput_invariant _ _ (extract_shape orig) hko
  · intro hget hq hs hko hm hlines content hcontent
    have herr := execErrNone ctx ["recsel", "-e", queryExpression, databaseFile] "" queryProc
    simp [UpdateRecords, herr, hq, hget, writeFile, hs] at hcontent
    rw [FS.get_remove_ne _ _ _ hbak, FS.get_set_self] at hcontent
    obtain rfl := Option.some.inj hcontent
    exact updateOutput_invariant _ _ _ (extract_shape orig) hko
      (updateFieldsPass_ne_nil _ fields hm) hlines
  · intro hget hq hs hm hwf content hcontent
    have herr := execErrNone ctx ["recsel", "-e", queryExpression, databaseFile] "" queryProc
    simp [UpdateRecords, herr, hq, hget, writeFile, hs] at hcontent
    rw [FS.get_remove_ne _ _ _ hbak, FS.get_set_self] at hcontent
    obtain rfl := Option.some.inj hcontent
    rw [hm]
    exact updateOutput_no_match_violation _ _ (extract_shape orig) hwf

/-- C4 amended witness: concrete create, delete and zero-match-update
instances. -/
theorem mutations_preserve_format_invariant_witness :
    specFormatInvariant "%rec: Person\n\nName: John\n" = true
    ∧ specFormatInvariant "%rec: T\n\na: 1\n" = true
    ∧ specFormatInvariant "%rec: T\n\na: 1" = false := by
  refine ⟨?_, ?_, ?_⟩
  · have h := (mutations_preserve_format_invariant none ⟨[]⟩ "db.rec" "Person" "x"
      "%rec: T\n\na: 1\n" [("Name", "John")] ⟨1, true, "", ""⟩ ⟨1, true, "", ""⟩
      ⟨1, true, "a: 1\n", ""⟩).1 (Or.inl (by decide)) (by decide) (by decide)
      (by decide) "%rec: Person\n\nName: John\n" (by decide)
    exact h
  · have h := (mutations_preserve_format_invariant none
      ⟨[("db.rec", "%rec: T\n\na: 1\n")]⟩ "db.rec" "Person" "x" "%rec: T\n\na: 1\n"
      [("Name", "John")] ⟨1, true, "", ""⟩ ⟨1, true, "", ""⟩
      ⟨1, true, "a: 1\n", ""⟩).2.1 (by decide) (by decide) (Or.inr (by decide))
      "%rec: T\n\na: 1\n" (by decide)
    exact h
  · have h := (mutations_preserve_format_invariant none
      ⟨[("db.rec", "%rec: T\n\na: 1\n")]⟩ "db.rec" "Person" "x" "%rec: T\n\na: 1\n"
      [("Age", "99")] ⟨1, true, "", ""⟩ ⟨1, true, "", ""⟩
      ⟨1, true, "a: 1\n", ""⟩).2.2.2 (by decide) (by decide) (by decide) (by decide)
      (by decide) "%rec: T\n\na: 1" (by decide)
    exact h

end RecMCP
